import Mathlib

/-! Shallow embedding of the Bonfire system-health collector, taken from
`src/fa_metrics_systemhealth_AFTERSubm.py` (the revision containing the
scheduling loop, the CSV ledger and the final delta report); the functions it
shares with the earlier draft `src/fa_metrics_systemhealth.py`
(`check_permissions`, `cleanup_old_logs`, `collect_metrics`) are identical in
both files except for the column capitalisation noted below.

Modelling conventions:
* wall-clock time and file modification times are rationals, measured in
  seconds; a run is normalised so that `time.time()` at `start_time_script`
  equals `0`, and the idealised timing model of the spec (tick work takes no
  time, `time.sleep(s)` advances the clock by exactly `s`) is used;
* the platform metric queries (`psutil`) are external collaborators: one
  collection attempt is an `Except String Metrics` value, where
  `Except.error msg` stands for a raised exception whose `str()` is `msg`;
* the CSV ledger file is a sequence of lines, each line a list of cells;
  `none` stands for an absent file;
* a directory listing is a flat list of entries (`os.listdir` does not
  recurse), each carrying the `os.path.isfile` flag and the mtime;
* for the permission check, a filesystem is a pair of path lists and a path
  is its list of components;
* the scheduling `while` loop is embedded with an explicit fuel argument;
  theorems about it assume enough fuel for the loop to reach its `break`.
-/

/-- The eight formatted metric strings produced by `collect_metrics`
(source lines 102-120): each field is the f-string the Python code builds
from the corresponding `psutil` query. -/
structure Metrics where
  m_cpu_usage : String
  m_used_memory : String
  m_total_memory : String
  m_memory_percent : String
  m_used_disk : String
  m_total_disk : String
  m_disk_percent : String
  m_uptime : String
deriving DecidableEq

/-- The all-unavailable bundle assigned in the `except` branch of the tick
(source lines 198-199): every one of the eight variables is set to "N/A". -/
def naMetrics : Metrics :=
  ⟨"N/A", "N/A", "N/A", "N/A", "N/A", "N/A", "N/A", "N/A"⟩

/-- The tick-boundary `try/except` around `collect_metrics` (source lines
185-199): on success all eight values are taken from the collection and
`error_code` keeps its initial value "None"; on any exception all eight
variables become "N/A" and `error_code` becomes `str(error_found)`. -/
def tickCollect (r : Except String Metrics) : Metrics × String :=
  match r with
  | Except.ok m => (m, "None")
  | Except.error e => (naMetrics, e)

/-- The insertion order of the `metrics_data` dict (source lines 204-215),
which pandas uses verbatim as the CSV header.  Note the last key is the
lower-case "uptime" in `fa_metrics_systemhealth_AFTERSubm.py` line 214. -/
def csvHeader : List String :=
  ["Timestamp", "Hostname", "CPU usage %", "Used Memory", "Total Memory",
    "Memory usage %", "Used Disk Space", "Total Disk Space", "Disk usage %",
    "uptime"]

/-- The cells of one ledger row, in the insertion order of `metrics_data`
(source lines 204-215). -/
def rowCells (ts hostname : String) (m : Metrics) : List String :=
  [ts, hostname, m.m_cpu_usage, m.m_used_memory, m.m_total_memory,
    m.m_memory_percent, m.m_used_disk, m.m_total_disk, m.m_disk_percent,
    m.m_uptime]

/-- One `to_csv(..., mode="a", header=write_header)` call (source lines
246-247): `write_header = not os.path.exists(metrics_history_csv)`, so an
absent file receives the header line followed by the row, and an existing
file receives the row appended after its current lines.  The result is the
line list of the file after the call. -/
def ledgerAppend (file : Option (List (List String))) (row : List String) :
    List (List String) :=
  match file with
  | none => [csvHeader, row]
  | some ls => ls ++ [row]

/-- Iterating `ledgerAppend` over the rows written during a run, threading
the file state; `none` in, no rows appended, leaves the file absent. -/
def ledgerAppendAll (file : Option (List (List String))) :
    List (List String) → Option (List (List String))
  | [] => file
  | r :: rs => ledgerAppendAll (some (ledgerAppend file r)) rs

/-- The start-of-run row count capture (source lines 165-169):
`len(pd.read_csv(...))` counts the data rows of an existing file (all lines
except the header line), and an absent file counts as 0. -/
def csv_start_row_count : Option (List (List String)) → ℕ
  | none => 0
  | some ls => ls.length - 1

/-- The end-of-run delta (source lines 264-265): `pd.read_csv` drops the
header line, and `.iloc[startCount:]` keeps the suffix of the data rows
starting at index `startCount`. -/
def rowsSince (lines : List (List String)) (startCount : ℕ) :
    List (List String) :=
  (lines.drop 1).drop startCount

/-- One entry of a directory listing: its name, its `os.path.isfile` flag
and its modification time (seconds). -/
structure DirEntry where
  name : String
  isFile : Bool
  mtime : ℚ
deriving DecidableEq

/-- `cleanup_old_logs` (source lines 89-96): for every name in the flat
listing of the directory, if it is a regular file whose mtime is strictly
before `now - retention`, the file is removed; everything else is kept.
`retention` is `timedelta(days=retention_days)` expressed in the time unit
of the mtimes. -/
def cleanup_old_logs (now retention : ℚ) (entries : List DirEntry) :
    List DirEntry :=
  entries.filter fun e => !(e.isFile && decide (e.mtime < now - retention))

/-- `os.path.join` restricted to the posix shape used here (one directory,
one file name). -/
def os_path_join (dir name : String) : String := dir ++ "/" ++ name

/-- The file name of the ledger, `f"Metric_History_csv_{tag_hostname}.csv"`
(source line 162). -/
def metricsHistoryCsvName (hostname : String) : String :=
  "Metric_History_csv_" ++ hostname ++ ".csv"

/-- `metrics_history_csv = os.path.join(log_dir, f"Metric_History_csv_...")`
(source line 162): the ledger path is formed directly inside the log
directory. -/
def metrics_history_csv (log_dir hostname : String) : String :=
  os_path_join log_dir (metricsHistoryCsvName hostname)

/-- `get_log_directory` (source lines 58-66); the macOS branch expands the
user home, passed here explicitly.  The Windows raw string
r"C:\\temp\\Content_Logs" contains doubled backslashes. -/
def get_log_directory (os_type home : String) : Except String String :=
  if os_type = "Windows" then Except.ok "C:\\\\temp\\\\Content_Logs"
  else if os_type = "Linux" then Except.ok "/var/log/Content_Logs"
  else if os_type = "Darwin" then Except.ok (home ++ "/Documents/Content_Logs")
  else Except.error "Unsupported OS"

/-- Effect of one append to the ledger file on the log-directory listing:
`to_csv(..., mode="a")` sets the mtime of an existing regular file with that
name to the current time, or creates the file with that mtime. -/
def touchFile (entries : List DirEntry) (name : String) (t : ℚ) :
    List DirEntry :=
  if entries.any fun e => e.name == name && e.isFile then
    entries.map fun e =>
      if e.name == name && e.isFile then ⟨e.name, e.isFile, t⟩ else e
  else ⟨name, true, t⟩ :: entries

/-- The per-tick log file name
`f"{file_timestamp}_{tag_hostname}_SystemHealth_Log.txt"`
(source lines 181-184). -/
def log_file_name (file_timestamp hostname : String) : String :=
  file_timestamp ++ "_" ++ hostname ++ "_SystemHealth_Log.txt"

/-- The scheduling loop of `main` (source lines 175-257) under the idealised
timing model, returning the list of tick start times (seconds since
`start_time_script`).  `D` is `st_runtime_hr * 3600`, `I` is
`mc_interval_min * 60`, and each iteration is: re-check
`time.time() < end_time_script`; perform the tick work at time `t`; break
when `time.time() + I >= end_time_script`; otherwise sleep `I` seconds and
repeat.  The fuel argument only bounds the number of unfoldings. -/
def loopRun (D I : ℚ) : ℕ → ℚ → List ℚ
  | 0, _ => []
  | fuel + 1, t =>
    if t < D then
      t :: (if D ≤ t + I then [] else loopRun D I fuel (t + I))
    else []

/-- `get_user_inputs_mci_sr` (source lines 126-143).  The interval prompt is
parsed with `int()` and the runtime prompt with `float()`; `none` stands for
input the respective parser rejects (a `ValueError`).  A parse failure or a
non-positive value prints an error and calls `sys.exit(1)`, modelled as
`Except.error 1`. -/
def get_user_inputs_mci_sr (mcInput : Option ℤ) (srInput : Option ℚ) :
    Except ℕ (ℤ × ℚ) :=
  match mcInput with
  | none => Except.error 1
  | some mc_interval_min =>
    if mc_interval_min ≤ 0 then Except.error 1
    else
      match srInput with
      | none => Except.error 1
      | some st_runtime_hr =>
        if st_runtime_hr ≤ 0 then Except.error 1
        else Except.ok (mc_interval_min, st_runtime_hr)

/-- Observable outcome of one `main` invocation: the exit code passed to
`sys.exit` (`none` when the process runs to normal completion), the tick
start times, the per-tick log file names created, and the final ledger file
content (`none` when the file was never created). -/
structure RunResult where
  exitCode : Option ℕ
  ticks : List ℚ
  logs : List String
  ledger : Option (List (List String))
deriving DecidableEq

/-- `main` (source lines 149-268) as a function of its external
collaborators: the two parsed prompt inputs, the outcome of the permission
check, the metrics provider (indexed by tick time), the hostname, the two
timestamp formatters (display and file-name), the initial ledger file and
the loop fuel.  Input validation runs first (line 150); a validation failure
exits before the permission check, the row-count capture and the loop, so no
log file and no ledger row is written. -/
def mainRun (mcInput : Option ℤ) (srInput : Option ℚ) (permOk : Bool)
    (provider : ℚ → Except String Metrics) (hostname : String)
    (fmtDisplay fmtFile : ℚ → String)
    (ledger0 : Option (List (List String))) (fuel : ℕ) : RunResult :=
  match get_user_inputs_mci_sr mcInput srInput with
  | Except.error c => ⟨some c, [], [], ledger0⟩
  | Except.ok (mc_interval_min, st_runtime_hr) =>
    if permOk then
      let run := loopRun (st_runtime_hr * 3600) ((mc_interval_min : ℚ) * 60)
        fuel 0
      { exitCode := none
        ticks := run
        logs := run.map fun t => log_file_name (fmtFile t) hostname
        ledger := ledgerAppendAll ledger0 (run.map fun t =>
          rowCells (fmtDisplay t) hostname (tickCollect (provider t)).1) }
    else ⟨some 1, [], [], ledger0⟩

/-- Python exceptions as seen by the `try/except PermissionError` in
`check_permissions`: either a `PermissionError` or any other exception
carrying its message. -/
inductive PyErr where
  | permissionError : PyErr
  | otherError (msg : String) : PyErr
deriving DecidableEq

/-- A filesystem for the permission probe: the set of existing directories
and the set of existing files, each path given as its component list. -/
structure FS where
  dirs : List (List String)
  files : List (List String)
deriving DecidableEq

/-- All the ancestor paths `os.makedirs` guarantees to exist afterwards: the
non-empty component prefixes of the requested directory. -/
def pathInits (p : List String) : List (List String) :=
  (List.range p.length).map fun k => p.take (k + 1)

/-- `os.makedirs(log_dir, exist_ok=True)` (source line 74): on success the
directory and all its missing parents exist; `exist_ok=True` means an
already existing directory is not an error.  `outcome` is the exception the
call raises, if any (the filesystem is left unchanged in that case). -/
def os_makedirs (outcome : Option PyErr) (fs : FS) (d : List String) :
    Except PyErr FS :=
  match outcome with
  | some e => Except.error e
  | none => Except.ok ⟨pathInits d ++ fs.dirs, fs.files⟩

/-- `open(test_file, "w")` followed by `f.write("test")` (source lines
76-77): on success the probe file exists afterwards. -/
def openWriteFile (outcome : Option PyErr) (fs : FS) (p : List String) :
    Except PyErr FS :=
  match outcome with
  | some e => Except.error e
  | none => Except.ok ⟨fs.dirs, p :: fs.files⟩

/-- `os.remove(test_file)` (source line 78): on success every file at that
path is gone afterwards. -/
def os_remove (outcome : Option PyErr) (fs : FS) (p : List String) :
    Except PyErr FS :=
  match outcome with
  | some e => Except.error e
  | none => Except.ok ⟨fs.dirs, fs.files.filter fun q => q != p⟩

/-- The exceptions the three I/O calls inside `check_permissions` would
raise, `none` meaning the call succeeds. -/
structure IOOutcomes where
  mkdirRes : Option PyErr
  writeRes : Option PyErr
  removeRes : Option PyErr

/-- The probe path `os.path.join(log_dir, "permission_test.tmp")`
(source line 75). -/
def probeFile (log_dir : List String) : List String :=
  log_dir ++ ["permission_test.tmp"]

/-- `check_permissions` (source lines 72-83): runs makedirs, probe write and
probe removal in order inside one `try`; a `PermissionError` anywhere is
caught and yields `False` (with the filesystem as the failing call left it);
any other exception propagates out of the function; if all three calls
succeed the function returns `True`. -/
def check_permissions (io : IOOutcomes) (fs : FS) (log_dir : List String) :
    Except PyErr (Bool × FS) :=
  match os_makedirs io.mkdirRes fs log_dir with
  | Except.error PyErr.permissionError => Except.ok (false, fs)
  | Except.error e => Except.error e
  | Except.ok fs1 =>
    match openWriteFile io.writeRes fs1 (probeFile log_dir) with
    | Except.error PyErr.permissionError => Except.ok (false, fs1)
    | Except.error e => Except.error e
    | Except.ok fs2 =>
      match os_remove io.removeRes fs2 (probeFile log_dir) with
      | Except.error PyErr.permissionError => Except.ok (false, fs2)
      | Except.error e => Except.error e
      | Except.ok fs3 => Except.ok (true, fs3)

theorem ledgerAppendAll_some (rows : List (List String)) :
    ∀ ls, ledgerAppendAll (some ls) rows = some (ls ++ rows) := by
  induction rows with
  | nil => intro ls; simp [ledgerAppendAll]
  | cons r rs ih =>
    intro ls
    simp only [ledgerAppendAll, ledgerAppend, ih, List.append_assoc,
      List.singleton_append]

/-- C5: starting from an absent ledger file, a sequence of `N ≥ 1` appends
produces a file whose lines are exactly the header followed by the `N` rows
in append order; moreover one append to an existing file only adds the row
at the end, so the header is written exactly once (only when the file was
absent) and previously written lines are never rewritten. -/
theorem ledger_append_header_once (r : List String) (rs : List (List String)) :
    ledgerAppendAll none (r :: rs) = some (csvHeader :: r :: rs) ∧
      ∀ ls row, ledgerAppend (some ls) row = ls ++ [row] := by
  constructor
  · simp only [ledgerAppendAll, ledgerAppend, ledgerAppendAll_some,
      List.cons_append, List.singleton_append, List.nil_append]
  · intro ls row; rfl

/-- C4 counterexample: the tick records `str(error_found)` verbatim as the
error cause, so an exception whose message is empty yields an empty recorded
cause — all eight metric fields are "N/A" but the cause has length 0,
refuting the claim that the recorded cause is always non-empty. -/
theorem error_cause_can_be_empty :
    tickCollect (Except.error "") = (naMetrics, "") ∧
      ((tickCollect (Except.error "")).2).length = 0 :=
  ⟨rfl, rfl⟩

/-- C4 (amended): on a tick where the collection raises, all eight metric
fields are set to the unavailable marker "N/A" together and the recorded
error cause is exactly the exception's message; in particular the cause is
non-empty whenever the exception's message is non-empty.  No field keeps a
value from a partial read. -/
theorem degraded_tick_all_na (e : String) :
    tickCollect (Except.error e) = (naMetrics, e) ∧
      (e ≠ "" → (tickCollect (Except.error e)).2 ≠ "") :=
  ⟨rfl, fun h => h⟩

theorem degraded_tick_all_na_witness :
    tickCollect (Except.error "boom") = (naMetrics, "boom") ∧
      (tickCollect (Except.error "boom")).2 ≠ "" :=
  ⟨(degraded_tick_all_na "boom").1, (degraded_tick_all_na "boom").2 (by decide)⟩

/-- C8 counterexample: the header the code writes ends in the lower-case
column name "uptime" (source line 214), not the "Uptime" the claim states,
so the claimed exact column-name list differs from the code's header. -/
theorem csvHeader_ne_spec_columns :
    csvHeader ≠ ["Timestamp", "Hostname", "CPU usage %", "Used Memory",
        "Total Memory", "Memory usage %", "Used Disk Space",
        "Total Disk Space", "Disk usage %", "Uptime"] ∧
      csvHeader.getLast? = some "uptime" := by
  constructor
  · decide
  · decide

/-- C8 (amended): every appended ledger row has exactly the fixed column
order Timestamp, Hostname, CPU usage %, Used Memory, Total Memory,
Memory usage %, Used Disk Space, Total Disk Space, Disk usage %, uptime —
the last column name being the lower-case "uptime" — and the row cells are
emitted in exactly that order. -/
theorem csvHeader_and_row_order :
    csvHeader = ["Timestamp", "Hostname", "CPU usage %", "Used Memory",
        "Total Memory", "Memory usage %", "Used Disk Space",
        "Total Disk Space", "Disk usage %", "uptime"] ∧
      ∀ ts hostname m, rowCells ts hostname m =
        [ts, hostname, m.m_cpu_usage, m.m_used_memory, m.m_total_memory,
          m.m_memory_percent, m.m_used_disk, m.m_total_disk, m.m_disk_percent,
          m.m_uptime] :=
  ⟨rfl, fun _ _ _ => rfl⟩

/-- C6: the suffix of the post-run ledger starting at the pre-run row count
recovers exactly the rows appended during the run, in append order.  The
hypothesis on the pre-existing file says only that it is non-empty (its
first line is the header `pd.read_csv` discards); the other hypothesis says
the run produced the file `pd.read_csv` reads at the end. -/
theorem rowsSince_roundtrip (file : Option (List (List String)))
    (rows final : List (List String))
    (hwf : ∀ ls, file = some ls → ls ≠ [])
    (hrun : ledgerAppendAll file rows = some final) :
    rowsSince final (csv_start_row_count file) = rows := by
  cases file with
  | none =>
    cases rows with
    | nil => simp [ledgerAppendAll] at hrun
    | cons r rs =>
      have h : ledgerAppendAll none (r :: rs) = some (csvHeader :: r :: rs) := by
        simp only [ledgerAppendAll, ledgerAppend, ledgerAppendAll_some,
          List.cons_append, List.singleton_append, List.nil_append]
      rw [h] at hrun
      injection hrun with hfin
      subst hfin
      simp [rowsSince, csv_start_row_count]
  | some ls =>
    have hne : ls ≠ [] := hwf ls rfl
    rw [ledgerAppendAll_some] at hrun
    injection hrun with hfin
    subst hfin
    obtain ⟨a, ls', rfl⟩ : ∃ a ls', ls = a :: ls' := by
      cases ls with
      | nil => exact absurd rfl hne
      | cons a l => exact ⟨a, l, rfl⟩
    simp only [rowsSince, csv_start_row_count, List.cons_append,
      List.drop_succ_cons, List.drop_zero, List.length_cons,
      Nat.add_sub_cancel]
    exact List.drop_left ls' rows

theorem rowsSince_roundtrip_witness :
    rowsSince [["H"], ["r1"], ["r2"]]
        (csv_start_row_count (some [["H"], ["r1"]])) = [["r2"]] :=
  rowsSince_roundtrip (some [["H"], ["r1"]]) [["r2"]] [["H"], ["r1"], ["r2"]]
    (fun ls h => by injection h with h2; rw [← h2]; simp)
    (by simp [ledgerAppendAll, ledgerAppend])

/-- C7: after one `cleanup_old_logs` pass at evaluation time `now`, no
regular file directly inside the directory has an mtime strictly older than
`now - retention`; every regular file at or after that cutoff is kept; and
entries that are not regular files (in particular subdirectories) are never
removed — the listing is flat, so subdirectory contents are never visited. -/
theorem cleanup_old_logs_retention (now retention : ℚ)
    (entries : List DirEntry) :
    (∀ e ∈ cleanup_old_logs now retention entries,
        e.isFile = true → now - retention ≤ e.mtime) ∧
      (∀ e ∈ entries, e.isFile = true → now - retention ≤ e.mtime →
        e ∈ cleanup_old_logs now retention entries) ∧
      (∀ e ∈ entries, e.isFile = false →
        e ∈ cleanup_old_logs now retention entries) := by
  refine ⟨?_, ?_, ?_⟩
  · intro e he hf
    rw [cleanup_old_logs, List.mem_filter] at he
    have h2 := he.2
    rw [hf] at h2
    simp only [Bool.true_and, Bool.not_eq_true', decide_eq_false_iff_not,
      not_lt] at h2
    exact h2
  · intro e he hf hm
    rw [cleanup_old_logs, List.mem_filter]
    refine ⟨he, ?_⟩
    rw [hf]
    simp only [Bool.true_and, Bool.not_eq_true', decide_eq_false_iff_not,
      not_lt]
    exact hm
  · intro e he hf
    rw [cleanup_old_logs, List.mem_filter]
    refine ⟨he, ?_⟩
    rw [hf]
    simp

theorem cleanup_old_logs_retention_witness :
    DirEntry.mk "recent.txt" true 80 ∈
      cleanup_old_logs 100 30 [DirEntry.mk "recent.txt" true 80] :=
  (cleanup_old_logs_retention 100 30 [DirEntry.mk "recent.txt" true 80]).2.1
    (DirEntry.mk "recent.txt" true 80) (by simp) rfl (by norm_num)

/-- C3 counterexample: in the default configuration the ledger path is
formed with `os.path.join(log_dir, ...)` — it lies directly inside the log
directory that is pruned after every tick (here the Linux default) — and
`cleanup_old_logs` has no filename exclusion: a regular file bearing the
ledger's name whose mtime is older than the cutoff is deleted.  Both
disjuncts of the claim therefore fail on the code. -/
theorem ledger_in_log_dir_and_pruner_no_exclusion :
    metrics_history_csv "/var/log/Content_Logs" "hostA" =
        os_path_join "/var/log/Content_Logs" (metricsHistoryCsvName "hostA") ∧
      get_log_directory "Linux" "/root" = Except.ok "/var/log/Content_Logs" ∧
      cleanup_old_logs 100 30
        [DirEntry.mk (metricsHistoryCsvName "hostA") true 0] = [] := by
  refine ⟨rfl, rfl, ?_⟩
  simp only [cleanup_old_logs, List.filter]
  norm_num

theorem touchFile_has_fresh (entries : List DirEntry) (nm : String) (t : ℚ) :
    ∃ e ∈ touchFile entries nm t,
      e.name = nm ∧ e.isFile = true ∧ e.mtime = t := by
  rw [touchFile]
  by_cases h : entries.any fun e => e.name == nm && e.isFile
  · rw [if_pos h]
    obtain ⟨e0, he0, hp⟩ := List.any_eq_true.mp h
    refine ⟨⟨e0.name, e0.isFile, t⟩, ?_, ?_, ?_, rfl⟩
    · have h2 : (fun e : DirEntry =>
          if e.name == nm && e.isFile then (⟨e.name, e.isFile, t⟩ : DirEntry)
          else e) e0 = ⟨e0.name, e0.isFile, t⟩ := by simp [hp]
      rw [← h2]
      exact List.mem_map_of_mem _ he0
    · have hp' : e0.name = nm ∧ e0.isFile = true := by simpa using hp
      exact hp'.1
    · have hp' : e0.name = nm ∧ e0.isFile = true := by simpa using hp
      exact hp'.2
  · rw [if_neg h]
    exact ⟨⟨nm, true, t⟩, List.mem_cons_self _ _, rfl, rfl, rfl⟩

/-- C3 (amended): the ledger lives in the pruned log directory itself and
the pruner has no filename exclusion; nevertheless the active ledger
survives every per-tick prune, because the tick appends to the ledger —
setting its mtime to the tick time — before `cleanup_old_logs` runs, so at
prune time its mtime is never strictly older than `now - retention` for any
non-negative retention threshold. -/
theorem active_ledger_survives_prune (entries : List DirEntry)
    (hostname : String) (t retention : ℚ) (hret : 0 ≤ retention) :
    ∃ e ∈ cleanup_old_logs t retention
        (touchFile entries (metricsHistoryCsvName hostname) t),
      e.name = metricsHistoryCsvName hostname ∧ e.isFile = true ∧
        e.mtime = t := by
  obtain ⟨e, he, hn, hf, hm⟩ :=
    touchFile_has_fresh entries (metricsHistoryCsvName hostname) t
  refine ⟨e, ?_, hn, hf, hm⟩
  rw [cleanup_old_logs, List.mem_filter]
  refine ⟨he, ?_⟩
  rw [hf, hm]
  simp only [Bool.true_and, Bool.not_eq_true', decide_eq_false_iff_not, not_lt]
  linarith

theorem active_ledger_survives_prune_witness :
    ∃ e ∈ cleanup_old_logs 10 30 (touchFile [] (metricsHistoryCsvName "h") 10),
      e.name = metricsHistoryCsvName "h" ∧ e.isFile = true ∧ e.mtime = 10 :=
  active_ledger_survives_prune [] "h" 10 30 (by norm_num)

theorem loopRun_mem_lt (D I : ℚ) :
    ∀ fuel t, ∀ x ∈ loopRun D I fuel t, x < D := by
  intro fuel
  induction fuel with
  | zero => intro t x hx; simp [loopRun] at hx
  | succ n ih =>
    intro t x hx
    rw [loopRun] at hx
    by_cases ht : t < D
    · rw [if_pos ht] at hx
      rcases List.mem_cons.mp hx with h | h
      · rw [h]; exact ht
      · by_cases hbr : D ≤ t + I
        · rw [if_pos hbr] at h; simp at h
        · rw [if_neg hbr] at h; exact ih (t + I) x h
    · rw [if_neg ht] at hx; simp at hx

theorem loopRun_length_aux (D I : ℚ) (hI : 0 < I) :
    ∀ fuel : ℕ, ∀ t : ℚ, t < D → (⌈(D - t) / I⌉).toNat ≤ fuel →
      (loopRun D I fuel t).length = (⌈(D - t) / I⌉).toNat := by
  intro fuel
  induction fuel with
  | zero =>
    intro t ht hf
    exfalso
    have h1 : 0 < (D - t) / I := div_pos (by linarith) hI
    have h2 : 0 < ⌈(D - t) / I⌉ := Int.ceil_pos.mpr h1
    omega
  | succ n ih =>
    intro t ht hf
    rw [loopRun, if_pos ht]
    by_cases hbr : D ≤ t + I
    · rw [if_pos hbr]
      have h1 : (D - t) / I ≤ 1 := by
        rw [div_le_one hI]; linarith
      have h2 : 0 < ⌈(D - t) / I⌉ :=
        Int.ceil_pos.mpr (div_pos (by linarith) hI)
      have h3 : ⌈(D - t) / I⌉ ≤ 1 := by
        have h4 : ((D - t) / I : ℚ) ≤ ((1 : ℤ) : ℚ) := by exact_mod_cast h1
        exact Int.ceil_le.mpr h4
      simp only [List.length_cons, List.length_nil]
      omega
    · rw [if_neg hbr]
      push_neg at hbr
      have hstep : (D - (t + I)) / I + 1 = (D - t) / I := by
        field_simp
        ring
      have hceil : ⌈(D - t) / I⌉ = ⌈(D - (t + I)) / I⌉ + 1 := by
        rw [← hstep, Int.ceil_add_one]
      have hpos : 0 < ⌈(D - (t + I)) / I⌉ :=
        Int.ceil_pos.mpr (div_pos (by linarith) hI)
      have hrec := ih (t + I) (by linarith) (by omega)
      simp only [List.length_cons, hrec]
      omega

/-- C1 counterexample, at the concrete valid configuration interval = 1
minute (I = 60 s), duration = 0.025 h (D = 90 s ≥ I): the loop performs 2
ticks (at t = 0 the lookahead 0 + 60 ≥ 90 fails, so it sleeps and ticks
again at t = 60), while floor(duration / interval) = 1 — the claimed tick
count floor(D/I) is wrong whenever the interval does not divide the
duration. -/
theorem loopRun_count_ne_floor :
    (loopRun 90 60 2 0).length = 2 ∧ (⌊(90 : ℚ) / 60⌋).toNat = 1 := by
  constructor
  · norm_num [loopRun]
  · norm_num

/-- C1 (amended): for every configuration with 0 < interval ≤ duration,
under the idealised timing model and with enough fuel, the loop executes
exactly ceil(duration / interval) ticks — the final tick being the first at
which the lookahead test now + interval ≥ endDeadline holds — and no tick
starts at or after the end deadline. -/
theorem loopRun_count_eq_ceil (D I : ℚ) (fuel : ℕ) (hI : 0 < I)
    (hID : I ≤ D) (hfuel : (⌈D / I⌉).toNat ≤ fuel) :
    (loopRun D I fuel 0).length = (⌈D / I⌉).toNat ∧
      ∀ t ∈ loopRun D I fuel 0, t < D := by
  have hD : 0 < D := lt_of_lt_of_le hI hID
  constructor
  · have h := loopRun_length_aux D I hI fuel 0 hD (by rw [sub_zero]; exact hfuel)
    rw [sub_zero] at h
    exact h
  · exact loopRun_mem_lt D I fuel 0

theorem loopRun_count_eq_ceil_witness :
    (loopRun 90 60 2 0).length = (⌈(90 : ℚ) / 60⌉).toNat ∧
      ∀ t ∈ loopRun 90 60 2 0, t < 90 :=
  loopRun_count_eq_ceil 90 60 2 (by norm_num) (by norm_num)
    (by
      have h : ((90 : ℚ) / 60) = 3 / 2 := by norm_num
      rw [h]
      have h2 : ⌈(3 / 2 : ℚ)⌉ = 2 := by
        rw [Int.ceil_eq_iff]
        norm_num
      rw [h2]
      decide)

/-- C2: with both inputs accepted as positive and a total duration (in
seconds) strictly below the interval, the run performs exactly one tick, at
time 0: one log file is written and one ledger row is appended before the
loop stops, the lookahead check being reached only after the tick's work, so
any positive duration yields at least one sample; the process then completes
normally. -/
theorem mainRun_single_tick_of_short_duration (n : ℤ) (q : ℚ)
    (provider : ℚ → Except String Metrics) (hostname : String)
    (fmtDisplay fmtFile : ℚ → String) (ledger0 : Option (List (List String)))
    (fuel : ℕ) (hn : 0 < n) (hq : 0 < q)
    (hshort : q * 3600 < (n : ℚ) * 60) (hfuel : 1 ≤ fuel) :
    mainRun (some n) (some q) true provider hostname fmtDisplay fmtFile
        ledger0 fuel =
      { exitCode := none
        ticks := [0]
        logs := [log_file_name (fmtFile 0) hostname]
        ledger := some (ledgerAppend ledger0
          (rowCells (fmtDisplay 0) hostname (tickCollect (provider 0)).1)) } := by
  obtain ⟨m, rfl⟩ : ∃ m, fuel = m + 1 := by
    cases fuel with
    | zero => omega
    | succ m => exact ⟨m, rfl⟩
  have hrun : loopRun (q * 3600) ((n : ℚ) * 60) (m + 1) 0 = [0] := by
    rw [loopRun]
    rw [if_pos (by positivity : (0 : ℚ) < q * 3600)]
    rw [if_pos (by linarith : q * 3600 ≤ 0 + (n : ℚ) * 60)]
  rw [mainRun, get_user_inputs_mci_sr]
  rw [if_neg (by omega : ¬ n ≤ 0), if_neg (by linarith : ¬ q ≤ 0)]
  simp only [hrun, List.map_cons, List.map_nil, ledgerAppendAll,
    if_pos rfl]
  rfl

theorem mainRun_single_tick_witness :
    mainRun (some 2) (some (1 / 60)) true (fun _ => Except.error "x") "h"
        (fun _ => "d") (fun _ => "f") none 1 =
      { exitCode := none
        ticks := [0]
        logs := [log_file_name "f" "h"]
        ledger := some (ledgerAppend none (rowCells "d" "h"
          (tickCollect (Except.error "x")).1)) } :=
  mainRun_single_tick_of_short_duration 2 (1 / 60) (fun _ => Except.error "x")
    "h" (fun _ => "d") (fun _ => "f") none 1 (by norm_num) (by norm_num)
    (by norm_num) (by norm_num)

/-- C9: if the interval input is rejected by int() or non-positive, or the
runtime input is rejected by float() or non-positive, the process exits with
code 1 (non-zero) before any tick: no tick runs, no log file is written and
the ledger file is untouched; conversely ticks happen only when both inputs
were accepted as positive numbers. -/
theorem invalid_input_exits_before_ticks (mcInput : Option ℤ)
    (srInput : Option ℚ) (permOk : Bool)
    (provider : ℚ → Except String Metrics) (hostname : String)
    (fmtDisplay fmtFile : ℚ → String) (ledger0 : Option (List (List String)))
    (fuel : ℕ) :
    ((mcInput = none ∨ (∃ n, mcInput = some n ∧ n ≤ 0) ∨ srInput = none ∨
        (∃ q, srInput = some q ∧ q ≤ 0)) →
      mainRun mcInput srInput permOk provider hostname fmtDisplay fmtFile
          ledger0 fuel = ⟨some 1, [], [], ledger0⟩ ∧ (1 : ℕ) ≠ 0) ∧
      ((mainRun mcInput srInput permOk provider hostname fmtDisplay fmtFile
          ledger0 fuel).ticks ≠ [] →
        ∃ n q, mcInput = some n ∧ 0 < n ∧ srInput = some q ∧ 0 < q) := by
  constructor
  · intro hbad
    refine ⟨?_, by omega⟩
    rcases mcInput with _ | n
    · rfl
    · by_cases hn : n ≤ 0
      · simp [mainRun, get_user_inputs_mci_sr, hn]
      · rcases hbad with h | ⟨n', hn', hle⟩ | h | ⟨q', hq', hle⟩
        · exact absurd h (by simp)
        · injection hn' with h2
          rw [h2] at hn
          exact absurd hle hn
        · subst h
          simp [mainRun, get_user_inputs_mci_sr, hn]
        · subst hq'
          simp [mainRun, get_user_inputs_mci_sr, hn, hle]
  · intro hticks
    rcases mcInput with _ | n
    · simp [mainRun, get_user_inputs_mci_sr] at hticks
    · by_cases hn : n ≤ 0
      · simp [mainRun, get_user_inputs_mci_sr, hn] at hticks
      · rcases srInput with _ | q
        · simp [mainRun, get_user_inputs_mci_sr, hn] at hticks
        · by_cases hq : q ≤ 0
          · simp [mainRun, get_user_inputs_mci_sr, hn, hq] at hticks
          · exact ⟨n, q, rfl, by omega, rfl, by linarith⟩

theorem invalid_input_exits_witness :
    mainRun none none true (fun _ => Except.error "x") "h" (fun _ => "d")
        (fun _ => "f") none 3 = ⟨some 1, [], [], none⟩ ∧ (1 : ℕ) ≠ 0 :=
  (invalid_input_exits_before_ticks none none true (fun _ => Except.error "x")
      "h" (fun _ => "d") (fun _ => "f") none 3).1 (Or.inl rfl)

/-- C10: the startup permission check has side effects beyond probing.  When
it returns True the log directory and all its missing parents have been
created and the probe file it wrote has been removed; it returns False only
when one of its three I/O calls raised a PermissionError; any other
exception from directory creation or file I/O propagates out of the
function uncaught (the propagated error is never a PermissionError). -/
theorem check_permissions_spec (io : IOOutcomes) (fs : FS)
    (log_dir : List String) :
    (∀ fs1, check_permissions io fs log_dir = Except.ok (true, fs1) →
        probeFile log_dir ∉ fs1.files ∧
          ∀ p ∈ pathInits log_dir, p ∈ fs1.dirs) ∧
      (∀ fs1, check_permissions io fs log_dir = Except.ok (false, fs1) →
        io.mkdirRes = some PyErr.permissionError ∨
          io.writeRes = some PyErr.permissionError ∨
          io.removeRes = some PyErr.permissionError) ∧
      (∀ e, check_permissions io fs log_dir = Except.error e →
        ∃ msg, e = PyErr.otherError msg) := by
  obtain ⟨mk, wr, rm⟩ := io
  rcases mk with _ | mke
  · rcases wr with _ | wre
    · rcases rm with _ | rme
      · -- all three calls succeed: returns true with the probe removed
        refine ⟨?_, ?_, ?_⟩
        · intro fs1 h
          simp only [check_permissions, os_makedirs, openWriteFile,
            os_remove] at h
          injection h with h2
          injection h2 with _ h3
          subst h3
          constructor
          · simp [List.mem_filter]
          · intro p hp
            simp only [FS.dirs, List.mem_append]
            exact Or.inl hp
        · intro fs1 h
          simp [check_permissions, os_makedirs, openWriteFile, os_remove] at h
        · intro e h
          simp [check_permissions, os_makedirs, openWriteFile, os_remove] at h
      · rcases rme with _ | msg
        · refine ⟨?_, ?_, ?_⟩
          · intro fs1 h
            simp [check_permissions, os_makedirs, openWriteFile,
              os_remove] at h
          · intro fs1 h
            exact Or.inr (Or.inr rfl)
          · intro e h
            simp [check_permissions, os_makedirs, openWriteFile,
              os_remove] at h
        · refine ⟨?_, ?_, ?_⟩
          · intro fs1 h
            simp [check_permissions, os_makedirs, openWriteFile,
              os_remove] at h
          · intro fs1 h
            simp [check_permissions, os_makedirs, openWriteFile,
              os_remove] at h
          · intro e h
            simp only [check_permissions, os_makedirs, openWriteFile,
              os_remove] at h
            injection h with h2
            exact ⟨msg, h2.symm⟩
    · rcases wre with _ | msg
      · refine ⟨?_, ?_, ?_⟩
        · intro fs1 h
          simp [check_permissions, os_makedirs, openWriteFile] at h
        · intro fs1 h
          exact Or.inr (Or.inl rfl)
        · intro e h
          simp [check_permissions, os_makedirs, openWriteFile] at h
      · refine ⟨?_, ?_, ?_⟩
        · intro fs1 h
          simp [check_permissions, os_makedirs, openWriteFile] at h
        · intro fs1 h
          simp [check_permissions, os_makedirs, openWriteFile] at h
        · intro e h
          simp only [check_permissions, os_makedirs, openWriteFile] at h
          injection h with h2
          exact ⟨msg, h2.symm⟩
  · rcases mke with _ | msg
    · refine ⟨?_, ?_, ?_⟩
      · intro fs1 h
        simp [check_permissions, os_makedirs] at h
      · intro fs1 h
        exact Or.inl rfl
      · intro e h
        simp [check_permissions, os_makedirs] at h
    · refine ⟨?_, ?_, ?_⟩
      · intro fs1 h
        simp [check_permissions, os_makedirs] at h
      · intro fs1 h
        simp [check_permissions, os_makedirs] at h
      · intro e h
        simp only [check_permissions, os_makedirs] at h
        injection h with h2
        exact ⟨msg, h2.symm⟩

theorem check_permissions_spec_witness :
    probeFile ["var", "log"] ∉
        (FS.mk (pathInits ["var", "log"]) []).files ∧
      ∀ p ∈ pathInits ["var", "log"],
        p ∈ (FS.mk (pathInits ["var", "log"]) []).dirs :=
  (check_permissions_spec ⟨none, none, none⟩ ⟨[], []⟩ ["var", "log"]).1
    (FS.mk (pathInits ["var", "log"]) []) (by
      simp [check_permissions, os_makedirs, openWriteFile, os_remove,
        probeFile])
